import Mathlib

/-!
Verification of the ticket-redemption relay (`server/redeemer.go`).

The development shallowly embeds the relay's data model and operations:
byte strings are `List Nat` (each element a byte value), Go `big.Int`
values that the code only ever builds from `SetBytes` (hence non-negative)
are `Nat`, Go `int64` fields are `Int`, and each Go function is translated
into a pure Lean function; collaborator calls (the sender monitor, the
gRPC stub, the time manager) become explicit arguments holding their
results, and side effects (lock operations, network calls, spawned
goroutines) are reified into explicit event lists or returned actions.
-/

/-- Byte strings on the wire: lists of byte values. -/
abbrev Bytes := List Nat

/-- `new(big.Int).SetBytes(b)`: interpret a byte string as a big-endian
unsigned integer. -/
def bytesToNat (b : Bytes) : Nat :=
  b.foldl (fun acc x => acc * 256 + x) 0

/-- Fuel-driven worker for `natToBytes`; the fuel bounds the recursion
depth so the definition is structural and evaluates by `decide`. -/
def natToBytesAux : Nat → Nat → Bytes
  | 0, _ => []
  | fuel + 1, n =>
    if n = 0 then [] else natToBytesAux fuel (n / 256) ++ [n % 256]

/-- `(*big.Int).Bytes()` for a non-negative value: the minimal big-endian
byte representation (the empty string for zero). -/
def natToBytes (n : Nat) : Bytes :=
  natToBytesAux n n

/-- `ethcommon.BytesToAddress` / `BytesToHash` generalized over the fixed
size `n`: byte strings longer than `n` are cropped from the left, shorter
ones are left-padded with zeros. -/
def bytesToFixed (n : Nat) (b : Bytes) : Bytes :=
  if n ≤ b.length then b.drop (b.length - n)
  else List.replicate (n - b.length) 0 ++ b

/-- `ethcommon.BytesToAddress` (addresses are 20 bytes). -/
def bytesToAddress (b : Bytes) : Bytes := bytesToFixed 20 b

/-- `ethcommon.BytesToHash` (hashes are 32 bytes). -/
def bytesToHash (b : Bytes) : Bytes := bytesToFixed 32 b

theorem bytesToNat_append_singleton (a : Bytes) (x : Nat) :
    bytesToNat (a ++ [x]) = bytesToNat a * 256 + x := by
  simp [bytesToNat, List.foldl_append]

theorem bytesToNat_natToBytesAux (fuel n : Nat) (h : n ≤ fuel) :
    bytesToNat (natToBytesAux fuel n) = n := by
  induction fuel generalizing n with
  | zero =>
    interval_cases n
    simp [natToBytesAux, bytesToNat]
  | succ f ih =>
    match n with
    | 0 => simp [natToBytesAux, bytesToNat]
    | m + 1 =>
      rw [natToBytesAux, if_neg (by omega : ¬ m + 1 = 0),
        bytesToNat_append_singleton, ih]
      · omega
      · have : (m + 1) / 256 < m + 1 := Nat.div_lt_self (by omega) (by omega)
        omega

/-- Wire codec round trip on non-negative big integers:
`SetBytes ∘ Bytes = id`. -/
theorem bytesToNat_natToBytes (n : Nat) : bytesToNat (natToBytes n) = n :=
  bytesToNat_natToBytesAux n n (Nat.le_refl n)

theorem bytesToFixed_of_length (n : Nat) (b : Bytes) (h : b.length = n) :
    bytesToFixed n b = b := by
  simp [bytesToFixed, h]

/-! ## Ticket data model

`pm.Ticket` / `pm.SignedTicket` are the domain objects; `net.Ticket` with
its nested parameter groups is the wire message. -/

/-- Domain ticket (`pm.Ticket`): addresses and hashes are canonical byte
strings, big-width non-negative integers are `Nat`, `CreationRound` is the
Go `int64`. -/
structure PMTicket where
  Recipient : Bytes
  Sender : Bytes
  FaceValue : Nat
  WinProb : Nat
  SenderNonce : Nat
  RecipientRandHash : Bytes
  CreationRound : Int
  CreationRoundBlockHash : Bytes
  ParamsExpirationBlock : Nat
  deriving DecidableEq

/-- Domain signed ticket (`pm.SignedTicket`): the ticket plus the
recipient-rand value and the signature. -/
structure SignedTicket where
  Ticket : PMTicket
  RecipientRand : Nat
  Sig : Bytes
  deriving DecidableEq

/-- Wire sub-message `net.TicketParams`. -/
structure TicketParams where
  Recipient : Bytes
  FaceValue : Bytes
  WinProb : Bytes
  RecipientRandHash : Bytes
  ExpirationBlock : Bytes
  deriving DecidableEq

/-- Wire sub-message `net.TicketSenderParams`. -/
structure TicketSenderParams where
  SenderNonce : Nat
  Sig : Bytes
  deriving DecidableEq

/-- Wire sub-message `net.TicketExpirationParams`. -/
structure TicketExpirationParams where
  CreationRound : Int
  CreationRoundBlockHash : Bytes
  deriving DecidableEq

/-- Wire ticket message `net.Ticket`. -/
structure NetTicket where
  Sender : Bytes
  RecipientRand : Bytes
  TicketParams : TicketParams
  SenderParams : TicketSenderParams
  ExpirationParams : TicketExpirationParams
  deriving DecidableEq

/-- `pmTicket`: decode a wire ticket into the domain signed ticket. -/
def pmTicket (ticket : NetTicket) : SignedTicket :=
  { Ticket :=
      { Recipient := bytesToAddress ticket.TicketParams.Recipient
        Sender := bytesToAddress ticket.Sender
        FaceValue := bytesToNat ticket.TicketParams.FaceValue
        WinProb := bytesToNat ticket.TicketParams.WinProb
        SenderNonce := ticket.SenderParams.SenderNonce
        RecipientRandHash := bytesToHash ticket.TicketParams.RecipientRandHash
        CreationRound := ticket.ExpirationParams.CreationRound
        CreationRoundBlockHash := bytesToHash ticket.ExpirationParams.CreationRoundBlockHash
        ParamsExpirationBlock := bytesToNat ticket.TicketParams.ExpirationBlock }
    RecipientRand := bytesToNat ticket.RecipientRand
    Sig := ticket.SenderParams.Sig }

/-- `protoTicket`: encode a domain signed ticket into the wire message.
Note the source populates the wire `RecipientRand` field from
`ticket.Recipient.Bytes()`, not from the domain `RecipientRand`. -/
def protoTicket (ticket : SignedTicket) : NetTicket :=
  { Sender := ticket.Ticket.Sender
    RecipientRand := ticket.Ticket.Recipient
    TicketParams :=
      { Recipient := ticket.Ticket.Recipient
        FaceValue := natToBytes ticket.Ticket.FaceValue
        WinProb := natToBytes ticket.Ticket.WinProb
        RecipientRandHash := ticket.Ticket.RecipientRandHash
        ExpirationBlock := natToBytes ticket.Ticket.ParamsExpirationBlock }
    SenderParams :=
      { SenderNonce := ticket.Ticket.SenderNonce
        Sig := ticket.Sig }
    ExpirationParams :=
      { CreationRound := ticket.Ticket.CreationRound
        CreationRoundBlockHash := ticket.Ticket.CreationRoundBlockHash } }

/-- C1: for every valid signed ticket (canonical 20-byte addresses and
32-byte hashes), `pmTicket (protoTicket t)` reproduces every field of `t`
byte-for-byte — sender, recipient, face value, win probability, sender
nonce, recipient-rand-hash, creation round, creation-round block hash,
expiration block and signature — except the flagged asymmetric field: the
round-tripped `RecipientRand` is the recipient address interpreted as an
integer, not `t`'s `RecipientRand`. -/
theorem pmTicket_protoTicket_roundtrip (t : SignedTicket)
    (hSender : t.Ticket.Sender.length = 20)
    (hRecipient : t.Ticket.Recipient.length = 20)
    (hRRH : t.Ticket.RecipientRandHash.length = 32)
    (hCRBH : t.Ticket.CreationRoundBlockHash.length = 32) :
    pmTicket (protoTicket t) =
      { t with RecipientRand := bytesToNat t.Ticket.Recipient } := by
  simp only [pmTicket, protoTicket, bytesToAddress, bytesToHash,
    bytesToFixed_of_length 20 _ hSender, bytesToFixed_of_length 20 _ hRecipient,
    bytesToFixed_of_length 32 _ hRRH, bytesToFixed_of_length 32 _ hCRBH,
    bytesToNat_natToBytes]

/-- Witness for C1 at a concrete valid signed ticket. -/
theorem pmTicket_protoTicket_roundtrip_witness :
    (List.replicate 20 (7 : Nat)).length = 20 ∧
    pmTicket (protoTicket
      { Ticket :=
          { Recipient := List.replicate 20 3
            Sender := List.replicate 20 7
            FaceValue := 1000
            WinProb := 500
            SenderNonce := 4
            RecipientRandHash := List.replicate 32 5
            CreationRound := 9
            CreationRoundBlockHash := List.replicate 32 6
            ParamsExpirationBlock := 77 }
        RecipientRand := 123456
        Sig := [1, 2, 3] }) =
      { Ticket :=
          { Recipient := List.replicate 20 3
            Sender := List.replicate 20 7
            FaceValue := 1000
            WinProb := 500
            SenderNonce := 4
            RecipientRandHash := List.replicate 32 5
            CreationRound := 9
            CreationRoundBlockHash := List.replicate 32 6
            ParamsExpirationBlock := 77 }
        RecipientRand := bytesToNat (List.replicate 20 3)
        Sig := [1, 2, 3] } :=
  ⟨by decide,
   pmTicket_protoTicket_roundtrip _ (by decide) (by decide) (by decide) (by decide)⟩

/-! ## ValidateSender (`RedeemerClient.ValidateSender`) -/

/-- Result of the local sender-info source (`sm.GetSenderInfo`): the
sender's deposit/reserve withdraw round. -/
structure SenderInfo where
  WithdrawRound : Int
  deriving DecidableEq

/-- Two's-complement wrap of an integer into the `int64` range, the final
step of a Go `int64` conversion. -/
def int64wrap (n : Int) : Int :=
  (n + 2 ^ 63) % 2 ^ 64 - 2 ^ 63

/-- `(*big.Int).Int64()`: the low 64-bit word of the absolute value, sign
applied, wrapped into `int64` (the Go implementation's behavior; the Go
documentation only defines the result for values representable in
`int64`). -/
def bigInt64 (x : Int) : Int :=
  if x < 0 then int64wrap (-((x.natAbs % 2 ^ 64 : Nat) : Int))
  else int64wrap ((x.natAbs % 2 ^ 64 : Nat) : Int)

theorem bigInt64_of_range (x : Int) (hlo : -(2 ^ 63) ≤ x) (hhi : x < 2 ^ 63) :
    bigInt64 x = x := by
  unfold bigInt64 int64wrap
  split <;> omega

/-- `RedeemerClient.ValidateSender`, with the collaborator results passed
in explicitly: `senderHex` is `sender.Hex()`, `info` the result of
`sm.GetSenderInfo(sender)`, `lastInitializedRound` the result of
`tm.LastInitializedRound()`. Returns `some msg` where the source returns a
non-nil error. -/
def validateSender (senderHex : String) (info : Except String SenderInfo)
    (lastInitializedRound : Int) : Option String :=
  match info with
  | Except.error e =>
    some ("could not get sender info for " ++ senderHex ++ ": " ++ e)
  | Except.ok i =>
    let maxWithdrawRound := lastInitializedRound + 1
    if bigInt64 i.WithdrawRound ≠ 0 ∧ i.WithdrawRound ≤ maxWithdrawRound then
      some ("deposit and reserve for sender " ++ senderHex ++
        " is set to unlock soon")
    else
      none

/-- C2: when the local sender-info source returns a withdraw round
(an `int64`-representable round) without error, `ValidateSender` errors
iff the withdraw round is non-zero and not strictly greater than
last-initialized-round + 1; when `GetSenderInfo` errors, `ValidateSender`
returns an error wrapping the underlying message. -/
theorem validateSender_spec (senderHex : String) (wr L : Int) (e : String)
    (hlo : -(2 ^ 63) ≤ wr) (hhi : wr < 2 ^ 63) :
    ((validateSender senderHex (Except.ok ⟨wr⟩) L ≠ none) ↔
      (wr ≠ 0 ∧ ¬ wr > L + 1)) ∧
    validateSender senderHex (Except.error e) L =
      some ("could not get sender info for " ++ senderHex ++ ": " ++ e) := by
  constructor
  · simp only [validateSender, bigInt64_of_range wr hlo hhi]
    split <;> rename_i h
    · simpa using ⟨h.1, by omega⟩
    · constructor
      · intro hc
        exact absurd rfl hc
      · intro hc
        exact absurd ⟨hc.1, by omega⟩ h
  · rfl

/-- Witness for C2: withdraw round 5 with last-initialized round 10 is
rejected (5 ≤ 11), and a sender-info failure is wrapped. -/
theorem validateSender_spec_witness :
    (-(2 ^ 63) ≤ (5 : Int) ∧ (5 : Int) < 2 ^ 63) ∧
    ((validateSender "0xabc" (Except.ok ⟨5⟩) 10 ≠ none) ↔
      ((5 : Int) ≠ 0 ∧ ¬ (5 : Int) > 10 + 1)) ∧
    validateSender "0xabc" (Except.error "boom") 10 =
      some ("could not get sender info for " ++ "0xabc" ++ ": " ++ "boom") :=
  ⟨⟨by decide, by decide⟩,
   validateSender_spec "0xabc" 5 10 "boom" (by decide) (by decide)⟩

/-! ## Client balance cache and `RedeemerClient.MaxFloat` -/

/-- Addresses as canonical 20-byte strings (`ethcommon.Address`). -/
abbrev Address := Bytes

/-- One entry of the client balance cache (`r.senders[sender]`): a cached
max-float value (`none` models a nil `*big.Int`) and the last-access
instant. -/
structure CacheEntry where
  maxFloat : Option Nat
  lastAccess : Nat
  deriving DecidableEq

/-- The client balance cache `r.senders`, as an association list keyed by
sender address (the Go map has at most one entry per key). -/
abbrev Cache := List (Address × CacheEntry)

/-- Association-list lookup (Go map read `m[k]`). -/
def alLookup {α β : Type} [DecidableEq α] : List (α × β) → α → Option β
  | [], _ => none
  | (k, v) :: t, s => if k = s then some v else alLookup t s

/-- Refresh the last-access instant of `sender`'s cache entry
(`mf.lastAccess = time.Now()` through the entry pointer). -/
def cacheTouch (c : Cache) (sender : Address) (now : Nat) : Cache :=
  c.map (fun kv =>
    if kv.1 = sender then (kv.1, { kv.2 with lastAccess := now }) else kv)

/-- Observable side effects of one `RedeemerClient.MaxFloat` call, in
order: mutex operations on `r.mu` and the unary RPC. -/
inductive ClientEvent
  | lockAcquire
  | lockRelease
  | netCall
  deriving DecidableEq

/-- The miss path of `RedeemerClient.MaxFloat`: unlock, then request the
max float from the redeemer over the wire and decode the reply's bytes. -/
def clientMaxFloatMiss (c : Cache) (remote : Except String Bytes) :
    Cache × Except String Nat × List ClientEvent :=
  (c, remote.map bytesToNat,
   [ClientEvent.lockAcquire, ClientEvent.lockRelease, ClientEvent.netCall])

/-- `RedeemerClient.MaxFloat`, with the unary RPC's result passed in as
`remote` (the `MaxFloat` reply's max-float bytes, or a transport error).
Returns the cache after the call, the result, and the event trace. -/
def clientMaxFloat (c : Cache) (sender : Address) (now : Nat)
    (remote : Except String Bytes) :
    Cache × Except String Nat × List ClientEvent :=
  match alLookup c sender with
  | some entry =>
    match entry.maxFloat with
    | some mf => (cacheTouch c sender now, Except.ok mf, [ClientEvent.lockAcquire])
    | none => clientMaxFloatMiss c remote
  | none => clientMaxFloatMiss c remote

/-- C3: a sender with a present (non-nil) cached max float gets the cached
value back with only that entry's last-access refreshed and no network
call; a sender with no cached value, or a nil cached value, triggers the
remote unary query, whose decoded result is returned with the cache map
left unchanged. -/
theorem clientMaxFloat_cache_spec (c : Cache) (sender : Address) (now : Nat)
    (remote : Except String Bytes) :
    (∀ entry mf, alLookup c sender = some entry → entry.maxFloat = some mf →
      clientMaxFloat c sender now remote =
        (cacheTouch c sender now, Except.ok mf, [ClientEvent.lockAcquire])) ∧
    ((alLookup c sender = none ∨
      (∃ entry, alLookup c sender = some entry ∧ entry.maxFloat = none)) →
      clientMaxFloat c sender now remote =
        (c, remote.map bytesToNat,
         [ClientEvent.lockAcquire, ClientEvent.lockRelease, ClientEvent.netCall])) := by
  constructor
  · intro entry mf hl hmf
    simp [clientMaxFloat, hl, hmf]
  · intro h
    rcases h with h | ⟨entry, hl, hmf⟩
    · simp [clientMaxFloat, h, clientMaxFloatMiss]
    · simp [clientMaxFloat, hl, hmf, clientMaxFloatMiss]

/-- Witness for C3: a cache hit for one sender, and a miss on the empty
cache. -/
theorem clientMaxFloat_cache_spec_witness :
    clientMaxFloat [([1], ⟨some 9, 0⟩)] [1] 42 (Except.ok [2]) =
      (cacheTouch [([1], ⟨some 9, 0⟩)] [1] 42, Except.ok 9,
       [ClientEvent.lockAcquire]) ∧
    clientMaxFloat [] [1] 42 (Except.ok [2]) =
      ([], (Except.ok [2] : Except String Bytes).map bytesToNat,
       [ClientEvent.lockAcquire, ClientEvent.lockRelease, ClientEvent.netCall]) :=
  ⟨(clientMaxFloat_cache_spec [([1], ⟨some 9, 0⟩)] [1] 42 (Except.ok [2])).1
     ⟨some 9, 0⟩ 9 (by decide) rfl,
   (clientMaxFloat_cache_spec [] [1] 42 (Except.ok [2])).2 (Or.inl rfl)⟩

/-- A lock trace is balanced when it has as many releases as acquires. -/
def lockBalanced (evs : List ClientEvent) : Prop :=
  evs.count ClientEvent.lockAcquire = evs.count ClientEvent.lockRelease

/-- C4: on the cache-hit path of `RedeemerClient.MaxFloat` the mutex is
acquired and never released (the event trace is just one acquire, not
balanced); on the miss path the trace is acquire, release, then the
network call, so the lock is balanced and released before the call. The
property "every exit path releases every lock it acquires" therefore
holds only on the miss path. -/
theorem clientMaxFloat_lock_leak (c : Cache) (sender : Address) (now : Nat)
    (remote : Except String Bytes) :
    (∀ entry mf, alLookup c sender = some entry → entry.maxFloat = some mf →
      (clientMaxFloat c sender now remote).2.2 = [ClientEvent.lockAcquire] ∧
      ¬ lockBalanced (clientMaxFloat c sender now remote).2.2) ∧
    ((alLookup c sender = none ∨
      (∃ entry, alLookup c sender = some entry ∧ entry.maxFloat = none)) →
      (clientMaxFloat c sender now remote).2.2 =
        [ClientEvent.lockAcquire, ClientEvent.lockRelease, ClientEvent.netCall] ∧
      lockBalanced (clientMaxFloat c sender now remote).2.2) := by
  constructor
  · intro entry mf hl hmf
    simp [clientMaxFloat, hl, hmf, lockBalanced]
  · intro h
    rcases h with h | ⟨entry, hl, hmf⟩
    · simp [clientMaxFloat, h, clientMaxFloatMiss, lockBalanced]
    · simp [clientMaxFloat, hl, hmf, clientMaxFloatMiss, lockBalanced]

/-- Witness for C4: the hit path leaves the lock held, the miss path
balances it. -/
theorem clientMaxFloat_lock_leak_witness :
    ((clientMaxFloat [([1], ⟨some 9, 0⟩)] [1] 42 (Except.ok [2])).2.2 =
       [ClientEvent.lockAcquire] ∧
     ¬ lockBalanced (clientMaxFloat [([1], ⟨some 9, 0⟩)] [1] 42 (Except.ok [2])).2.2) ∧
    ((clientMaxFloat [] [1] 42 (Except.ok [2])).2.2 =
       [ClientEvent.lockAcquire, ClientEvent.lockRelease, ClientEvent.netCall] ∧
     lockBalanced (clientMaxFloat [] [1] 42 (Except.ok [2])).2.2) :=
  ⟨(clientMaxFloat_lock_leak [([1], ⟨some 9, 0⟩)] [1] 42 (Except.ok [2])).1
     ⟨some 9, 0⟩ 9 (by decide) rfl,
   (clientMaxFloat_lock_leak [] [1] 42 (Except.ok [2])).2 (Or.inl rfl)⟩

/-! ## Server `Redeemer.QueueTicket` -/

/-- gRPC status codes used by the relay. -/
inductive StatusCode
  | internal
  deriving DecidableEq

/-- The empty acknowledgement message `net.QueueTicketRes`. -/
structure QueueTicketRes where
  deriving DecidableEq

/-- Background action spawned by a server handler. -/
inductive ServerAction
  | spawnMonitor (sender : Address)
  deriving DecidableEq

/-- `Redeemer.QueueTicket`, with the Float Authority's verdict passed in
as `smQueue` (the error returned by `r.sm.QueueTicket(t)`, or `none` on
acceptance). Returns the gRPC outcome and the spawned background action
(`go r.monitorMaxFloat(...)` on the sender's address). -/
def queueTicketServer (smQueue : Option String) (senderBytes : Bytes) :
    Except (StatusCode × String) QueueTicketRes × List ServerAction :=
  match smQueue with
  | some e => (Except.error (StatusCode.internal, e), [])
  | none =>
    (Except.ok {}, [ServerAction.spawnMonitor (bytesToAddress senderBytes)])

/-- C5: when the Float Authority rejects a ticket with error `e`,
`QueueTicket` returns an internal-error status carrying exactly `e`'s
message and no acknowledgement; when the submission succeeds it returns
the empty acknowledgement and no error. -/
theorem queueTicketServer_spec (e : String) (senderBytes : Bytes) :
    (queueTicketServer (some e) senderBytes).1 =
      Except.error (StatusCode.internal, e) ∧
    (queueTicketServer none senderBytes).1 = Except.ok {} :=
  ⟨rfl, rfl⟩

/-! ## Idempotency of server monitor creation (`Redeemer.monitorMaxFloat`)

`QueueTicket` runs `go r.monitorMaxFloat(sender)` for every accepted
ticket. The prefix of `monitorMaxFloat` that decides whether to subscribe
is, for one fixed sender, two separate atomic operations on the
`liveSenders` sync.Map — `Load(sender)` and then `Store(sender, now)`
followed by `SubscribeMaxFloat` when the load found no entry — so
concurrent invocations interleave at the Load/Store boundary. The model
runs several invocations of this prefix under an explicit interleaving
schedule and counts `SubscribeMaxFloat` calls. -/

/-- Program counter of one `monitorMaxFloat` invocation for the fixed
sender: not yet run; after `liveSenders.Load` (remembering whether an
entry was found); finished (remembering whether it subscribed). -/
inductive TaskPC
  | start
  | loaded (ok : Bool)
  | finished (subscribed : Bool)
  deriving DecidableEq

/-- One atomic step of a `monitorMaxFloat` invocation: `live` is whether
`liveSenders` holds an entry for the sender. Returns the new `live`, the
new program counter, and the number of `SubscribeMaxFloat` calls made
(0 or 1). A finished task steps to itself. -/
def taskStep : Bool × TaskPC → Bool × TaskPC × Nat
  | (live, TaskPC.start) => (live, TaskPC.loaded live, 0)
  | (_, TaskPC.loaded true) => (true, TaskPC.finished false, 0)
  | (_, TaskPC.loaded false) => (true, TaskPC.finished true, 1)
  | (live, TaskPC.finished b) => (live, TaskPC.finished b, 0)

/-- System state: entry-present flag, the program counters of the
invocations, and the running `SubscribeMaxFloat` count. -/
abbrev MonitorSys := Bool × List TaskPC × Nat

/-- Run one step of the invocation at index `i` (schedules naming an
absent index leave the state unchanged). -/
def sysStep : MonitorSys → Nat → MonitorSys
  | (live, tasks, subs), i =>
    match tasks[i]? with
    | none => (live, tasks, subs)
    | some pc =>
      let s := taskStep (live, pc)
      (s.1, tasks.set i s.2.1, subs + s.2.2)

/-- Run the invocations under the interleaving schedule `sched` (each
element names the invocation that takes the next atomic step). -/
def runSched (s : MonitorSys) (sched : List Nat) : MonitorSys :=
  sched.foldl sysStep s

/-- Counterexample to C6: two concurrent `monitorMaxFloat` invocations
for the same previously-unseen sender, interleaved as Load₁, Load₂,
Store₁+Subscribe₁, Store₂+Subscribe₂ (a real interleaving, since Load and
Store are separate sync.Map operations), both find no entry and both
subscribe: two monitors are created, not exactly one. -/
theorem monitor_concurrent_duplicate :
    runSched (false, [TaskPC.start, TaskPC.start], 0) [0, 1, 0, 1] =
      (true, [TaskPC.finished true, TaskPC.finished true], 2) := by
  decide

/-- The sequential schedule: invocation 0 runs both its steps, then
invocation 1, and so on. -/
def seqSched : Nat → List Nat
  | 0 => []
  | n + 1 => seqSched n ++ [n, n]

theorem runSched_append (s : MonitorSys) (a b : List Nat) :
    runSched s (a ++ b) = runSched (runSched s a) b := by
  simp [runSched, List.foldl_append]

/-- State reached by the sequential run of `n` invocations on a
previously-unseen sender, with `rest` unrun invocations behind them. -/
theorem runSched_seq (n : Nat) (rest : List TaskPC) :
    runSched (false, List.replicate n TaskPC.start ++ rest, 0) (seqSched n) =
      (if n = 0 then false else true,
       (if n = 0 then [] else
         TaskPC.finished true :: List.replicate (n - 1) (TaskPC.finished false)) ++ rest,
       if n = 0 then 0 else 1) := by
  induction n generalizing rest with
  | zero => simp [seqSched, runSched]
  | succ m ih =>
    have hstep : seqSched (m + 1) = seqSched m ++ [m, m] := rfl
    rw [hstep, runSched_append]
    have hsplit : List.replicate (m + 1) TaskPC.start ++ rest =
        List.replicate m TaskPC.start ++ (TaskPC.start :: rest) := by
      rw [List.replicate_succ']
      simp
    rw [hsplit, ih (TaskPC.start :: rest)]
    match m with
    | 0 =>
      simp [runSched, sysStep, taskStep]
    | k + 1 =>
      simp only [Nat.succ_ne_zero, if_neg, ite_false]
      have hlen : (TaskPC.finished true ::
          List.replicate (k + 1 - 1) (TaskPC.finished false)).length = k + 1 := by
        simp
      have hget : ((TaskPC.finished true ::
          List.replicate (k + 1 - 1) (TaskPC.finished false)) ++
            TaskPC.start :: rest)[k + 1]? = some TaskPC.start := by
        rw [List.getElem?_append_right (by omega)]
        simp [hlen]
      have hset1 : ((TaskPC.finished true ::
          List.replicate (k + 1 - 1) (TaskPC.finished false)) ++
            TaskPC.start :: rest).set (k + 1) (TaskPC.loaded true) =
          (TaskPC.finished true ::
            List.replicate (k + 1 - 1) (TaskPC.finished false)) ++
            TaskPC.loaded true :: rest := by
        rw [List.set_append_right _ _ (by omega)]
        simp [hlen]
      have hget2 : ((TaskPC.finished true ::
          List.replicate (k + 1 - 1) (TaskPC.finished false)) ++
            TaskPC.loaded true :: rest)[k + 1]? = some (TaskPC.loaded true) := by
        rw [List.getElem?_append_right (by omega)]
        simp [hlen]
      have hset2 : ((TaskPC.finished true ::
          List.replicate (k + 1 - 1) (TaskPC.finished false)) ++
            TaskPC.loaded true :: rest).set (k + 1) (TaskPC.finished false) =
          (TaskPC.finished true ::
            List.replicate (k + 1 - 1) (TaskPC.finished false)) ++
            TaskPC.finished false :: rest := by
        rw [List.set_append_right _ _ (by omega)]
        simp [hlen]
      simp only [runSched, List.foldl_cons, List.foldl_nil, sysStep, hget,
        taskStep, hset1, hget2, hset2]
      simp [List.replicate_succ', List.append_assoc]

/-- C6 (amended): when the `monitorMaxFloat` invocations for a
previously-unseen sender run sequentially (each to completion before the
next begins), any number `n ≥ 1` of queued tickets yields exactly one
`SubscribeMaxFloat` subscription: the first invocation subscribes and
every later one finds the liveness entry, refreshes it and finishes
without subscribing. -/
theorem monitor_sequential_once (n : Nat) (h : 1 ≤ n) :
    runSched (false, List.replicate n TaskPC.start, 0) (seqSched n) =
      (true, TaskPC.finished true ::
        List.replicate (n - 1) (TaskPC.finished false), 1) := by
  have := runSched_seq n []
  rw [List.append_nil] at this
  rw [this]
  have hne : ¬ n = 0 := by omega
  simp [hne]

/-- Witness for C6 (amended): three sequential ticket arrivals create
exactly one subscription. -/
theorem monitor_sequential_once_witness :
    1 ≤ 3 ∧
    runSched (false, List.replicate 3 TaskPC.start, 0) (seqSched 3) =
      (true, TaskPC.finished true ::
        List.replicate 2 (TaskPC.finished false), 1) :=
  ⟨by decide, monitor_sequential_once 3 (by decide)⟩

/-! ## Server liveness sweep (`Redeemer.startCleanupLoop`) -/

/-- The server's sender-liveness map `r.liveSenders`: sender address →
last-access instant (unique keys, as in the sync.Map). -/
abbrev LiveMap := List (Address × Nat)

/-- One pass of the body of `Redeemer.startCleanupLoop`'s ticker case at
time `now`: range over the liveness map and delete every entry whose
last-access plus the liveness window is before `now`. -/
def serverSweep : LiveMap → Nat → Nat → LiveMap
  | [], _, _ => []
  | (k, t) :: rest, window, now =>
    if t + window < now then serverSweep rest window now
    else (k, t) :: serverSweep rest window now

theorem alLookup_eq_none_of_not_mem {β : Type} (l : List (Address × β))
    (s : Address) (h : s ∉ l.map Prod.fst) : alLookup l s = none := by
  induction l with
  | nil => rfl
  | cons kv rest ih =>
    simp only [List.map_cons, List.mem_cons] at h
    push_neg at h
    simp only [alLookup]
    rw [if_neg (fun he => h.1 he.symm)]
    exact ih h.2

theorem alLookup_serverSweep_none (m : LiveMap) (window now : Nat)
    (s : Address) (h : alLookup m s = none) :
    alLookup (serverSweep m window now) s = none := by
  induction m with
  | nil => rfl
  | cons kv rest ih =>
    match kv with
    | (k, t) =>
      simp only [alLookup] at h
      by_cases hk : k = s
      · rw [if_pos hk] at h
        exact absurd h (by simp)
      · rw [if_neg hk] at h
        simp only [serverSweep]
        split
        · exact ih h
        · simp only [alLookup, if_neg hk]
          exact ih h

/-- C7: one sweep pass at time `now` over a liveness map with unique keys
removes each entry exactly when its last-access plus the liveness window
is before `now`; every other entry survives with its value intact,
entries for other senders unaffected. -/
theorem serverSweep_spec (m : LiveMap) (window now : Nat) (s : Address)
    (hnd : (m.map Prod.fst).Nodup) :
    alLookup (serverSweep m window now) s =
      match alLookup m s with
      | none => none
      | some t => if t + window < now then none else some t := by
  induction m with
  | nil => rfl
  | cons kv rest ih =>
    match kv with
    | (k, t) =>
      simp only [List.map_cons, List.nodup_cons] at hnd
      by_cases hk : k = s
      · subst hk
        have hl : alLookup ((k, t) :: rest) k = some t := by simp [alLookup]
        rw [hl]
        show alLookup (serverSweep ((k, t) :: rest) window now) k =
          if t + window < now then none else some t
        by_cases hstale : t + window < now
        · simp only [serverSweep, if_pos hstale]
          exact alLookup_serverSweep_none rest window now k
            (alLookup_eq_none_of_not_mem rest k hnd.1)
        · simp only [serverSweep, if_neg hstale]
          simp [alLookup]
      · have hl : alLookup ((k, t) :: rest) s = alLookup rest s := by
          simp [alLookup, hk]
        rw [hl]
        by_cases hstale : t + window < now
        · simp only [serverSweep, if_pos hstale]
          exact ih hnd.2
        · simp only [serverSweep, if_neg hstale, alLookup, if_neg hk]
          exact ih hnd.2

/-- Witness for C7: with a one-hour window at `now = 100`, the entry
touched at 10 (stale) is gone after the sweep, the one touched at 95
survives, and an absent sender stays absent. -/
theorem serverSweep_spec_witness :
    (([([1], 10), ([2], 95)] : LiveMap).map Prod.fst).Nodup ∧
    alLookup (serverSweep [([1], 10), ([2], 95)] 60 100) [1] =
      (match alLookup ([([1], 10), ([2], 95)] : LiveMap) [1] with
       | none => none
       | some t => if t + 60 < 100 then none else some t) ∧
    alLookup (serverSweep [([1], 10), ([2], 95)] 60 100) [2] =
      (match alLookup ([([1], 10), ([2], 95)] : LiveMap) [2] with
       | none => none
       | some t => if t + 60 < 100 then none else some t) :=
  ⟨by decide,
   serverSweep_spec [([1], 10), ([2], 95)] 60 100 [1] (by decide),
   serverSweep_spec [([1], 10), ([2], 95)] 60 100 [2] (by decide)⟩

/-! ## Tasks spawned on startup, and the client cleanup sweep -/

/-- The long-running tasks the two `Start` methods can launch. -/
inductive SpawnedTask
  | serveRPC
  | serverCleanupLoop
  | clientMonitorLoop
  | clientCleanupLoop
  deriving DecidableEq

/-- `Redeemer.Start`: after binding the listener it runs
`go r.startCleanupLoop()` and then serves the gRPC server. -/
def redeemerStartTasks : List SpawnedTask :=
  [SpawnedTask.serverCleanupLoop, SpawnedTask.serveRPC]

/-- `RedeemerClient.Start`: its whole body is
`go r.monitorMaxFloat(context.Background())` — the streaming receive
loop is the only task launched. -/
def redeemerClientStartTasks : List SpawnedTask :=
  [SpawnedTask.clientMonitorLoop]

/-- One pass of the body of `RedeemerClient.startCleanupLoop`'s ticker
case at time `now`: delete every cache entry whose last-access plus the
liveness window is before `now`, calling `r.sm.Clear(sender)` for each
deleted sender. Returns the swept cache and the senders cleared. -/
def clientSweep : Cache → Nat → Nat → Cache × List Address
  | [], _, _ => ([], [])
  | (k, e) :: rest, window, now =>
    let s := clientSweep rest window now
    if e.lastAccess + window < now then (s.1, k :: s.2)
    else ((k, e) :: s.1, s.2)

/-- C8 (code bug evidence): `RedeemerClient.Start` never launches
`RedeemerClient.startCleanupLoop` — the only task it spawns is the
streaming receive loop — even though the server's `Start` does launch its
own cleanup loop, and even though the client sweep, had it run, would
delete a stale entry and clear exactly that sender (shown here on a cache
whose single entry is one window stale). The client's periodic sweep
therefore never executes, so a stale cache entry is never deleted and
`Clear` is never invoked. -/
theorem clientCleanupLoop_never_started :
    SpawnedTask.clientCleanupLoop ∉ redeemerClientStartTasks ∧
    SpawnedTask.serverCleanupLoop ∈ redeemerStartTasks ∧
    clientSweep [([1], ⟨some 5, 0⟩)] 60 100 = ([], [[1]]) := by
  decide

/-! ## Max-float updates on the wire (`sendMaxFloatUpdate` and the
client receive loop) -/

/-- Wire message `net.MaxFloatUpdate`. -/
structure MaxFloatUpdate where
  Sender : Bytes
  MaxFloat : Bytes
  deriving DecidableEq

/-- The max-float bytes placed in a broadcast update by
`Redeemer.sendMaxFloatUpdate`: a nil `*big.Int` leaves the byte slice
nil (empty on the wire); otherwise `maxFloat.Bytes()`. -/
def maxFloatUpdateEncode (maxFloat : Option Nat) : Bytes :=
  match maxFloat with
  | none => []
  | some v => natToBytes v

/-- The server's subscriber registry `r.subs`: peer address (the stream
identity) → update channel, modelled by a channel id. -/
abbrev Subs := List (String × Nat)

/-- `Redeemer.sendMaxFloatUpdate`: range over the whole registry and
perform one blocking send of the update on every subscriber's channel.
Returns the sends performed, as channel/message pairs. -/
def sendMaxFloatUpdate (subs : Subs) (sender : Address)
    (maxFloat : Option Nat) : List (Nat × MaxFloatUpdate) :=
  subs.map (fun kv => (kv.2, ⟨sender, maxFloatUpdateEncode maxFloat⟩))

/-- Go map write `m[k] = e`: overwrite the entry if the key is present,
append it otherwise. -/
def cacheStore (c : Cache) (sender : Address) (e : CacheEntry) : Cache :=
  match alLookup c sender with
  | some _ =>
    c.map (fun kv => if kv.1 = sender then (kv.1, e) else kv)
  | none => c ++ [(sender, e)]

/-- One update received by the client's streaming receive loop
(`RedeemerClient.monitorMaxFloat`): store
`new(big.Int).SetBytes(update.MaxFloat)` with the current instant under
the update's sender. -/
def clientRecvUpdate (c : Cache) (u : MaxFloatUpdate) (now : Nat) : Cache :=
  cacheStore c (bytesToAddress u.Sender) ⟨some (bytesToNat u.MaxFloat), now⟩

/-- C9: a broadcast whose max float is absent (nil) and one whose max
float is the integer zero produce identical wire messages — the empty
max-float byte string — to every subscriber, and the client's receive
loop decodes both into the integer zero in its cache, so a reader of the
proxy's cache cannot distinguish "no value available" from a max float of
exactly zero. -/
theorem nil_zero_update_indistinguishable (subs : Subs) (sender : Address)
    (c : Cache) (now : Nat) :
    sendMaxFloatUpdate subs sender none =
      sendMaxFloatUpdate subs sender (some 0) ∧
    maxFloatUpdateEncode none = [] ∧
    maxFloatUpdateEncode (some 0) = [] ∧
    clientRecvUpdate c ⟨sender, maxFloatUpdateEncode none⟩ now =
      clientRecvUpdate c ⟨sender, maxFloatUpdateEncode (some 0)⟩ now ∧
    alLookup (clientRecvUpdate [] ⟨sender, maxFloatUpdateEncode none⟩ now)
        (bytesToAddress sender) = some ⟨some 0, now⟩ ∧
    alLookup (clientRecvUpdate [] ⟨sender, maxFloatUpdateEncode (some 0)⟩ now)
        (bytesToAddress sender) = some ⟨some 0, now⟩ := by
  refine ⟨rfl, rfl, rfl, rfl, ?_, ?_⟩ <;>
    simp [clientRecvUpdate, cacheStore, maxFloatUpdateEncode, bytesToNat,
      natToBytes, natToBytesAux, alLookup]

/-! ## Server stream handler (`Redeemer.MonitorMaxFloat`) -/

/-- Result of `stream.Send` on a queued update. -/
inductive SendRes
  | ok
  | eof
  | err (msg : String)
  deriving DecidableEq

/-- One iteration's trigger in `Redeemer.MonitorMaxFloat`'s select loop:
an update arriving on the subscriber's channel (with the send's result),
service shutdown (`r.quit`), or the stream's context ending. -/
inductive StreamEvent
  | update (res : SendRes)
  | quit
  | ctxDone
  deriving DecidableEq

/-- How an iteration of the select loop ends. -/
inductive LoopOutcome
  | next
  | retErr
  | retNil
  deriving DecidableEq

/-- `r.subs.Delete(peer)`. -/
def subsDelete : Subs → String → Subs
  | [], _ => []
  | (k, v) :: rest, peer =>
    if k = peer then subsDelete rest peer else (k, v) :: subsDelete rest peer

/-- One iteration of `Redeemer.MonitorMaxFloat`'s select loop for the
stream identified by peer address `peer`: a send returning `io.EOF`
deletes the registry entry and returns an error; any other send result
continues the loop; shutdown and context-end return nil. Returns the
registry after the iteration and the outcome. -/
def monitorMaxFloatStep (subs : Subs) (peer : String) :
    StreamEvent → Subs × LoopOutcome
  | StreamEvent.update SendRes.ok => (subs, LoopOutcome.next)
  | StreamEvent.update SendRes.eof => (subsDelete subs peer, LoopOutcome.retErr)
  | StreamEvent.update (SendRes.err _) => (subs, LoopOutcome.next)
  | StreamEvent.quit => (subs, LoopOutcome.retNil)
  | StreamEvent.ctxDone => (subs, LoopOutcome.retNil)

theorem alLookup_subsDelete (subs : Subs) (peer : String) :
    alLookup (subsDelete subs peer) peer = none := by
  induction subs with
  | nil => rfl
  | cons kv rest ih =>
    match kv with
    | (k, v) =>
      simp only [subsDelete]
      by_cases hk : k = peer
      · rw [if_pos hk]
        exact ih
      · rw [if_neg hk]
        simp only [alLookup, if_neg hk]
        exact ih

theorem mem_of_alLookup_eq_some {α β : Type} [DecidableEq α]
    (l : List (α × β)) (k : α) (v : β) (h : alLookup l k = some v) :
    (k, v) ∈ l := by
  induction l with
  | nil => exact absurd h (by simp [alLookup])
  | cons kv rest ih =>
    simp only [alLookup] at h
    split at h
    · rename_i hk
      subst hk
      simp at h
      subst h
      exact List.mem_cons_self _ _
    · exact List.mem_cons_of_mem _ (ih h)

/-- C10: `Redeemer.MonitorMaxFloat` removes the caller's registry entry
only when a send reports end-of-stream (after which the peer's entry is
gone); an iteration triggered by service shutdown or by the stream's
context ending returns with the registry untouched, so a peer registered
with channel `ch` still gets a blocking send attempted on `ch` by every
subsequent broadcast even though no handler is receiving. -/
theorem monitorMaxFloat_registry_leak (subs : Subs) (peer : String)
    (sender : Address) (mf : Option Nat) :
    (∀ ev, ev ≠ StreamEvent.update SendRes.eof →
      (monitorMaxFloatStep subs peer ev).1 = subs) ∧
    (monitorMaxFloatStep subs peer StreamEvent.quit).2 = LoopOutcome.retNil ∧
    (monitorMaxFloatStep subs peer StreamEvent.ctxDone).2 = LoopOutcome.retNil ∧
    alLookup (monitorMaxFloatStep subs peer
      (StreamEvent.update SendRes.eof)).1 peer = none ∧
    (∀ ch, alLookup subs peer = some ch →
      (ch, (⟨sender, maxFloatUpdateEncode mf⟩ : MaxFloatUpdate)) ∈
        sendMaxFloatUpdate
          (monitorMaxFloatStep subs peer StreamEvent.quit).1 sender mf) := by
  refine ⟨?_, rfl, rfl, alLookup_subsDelete subs peer, ?_⟩
  · intro ev hev
    match ev with
    | StreamEvent.update SendRes.ok => rfl
    | StreamEvent.update SendRes.eof => exact absurd rfl hev
    | StreamEvent.update (SendRes.err m) => rfl
    | StreamEvent.quit => rfl
    | StreamEvent.ctxDone => rfl
  · intro ch hch
    have hmem := mem_of_alLookup_eq_some subs peer ch hch
    simpa [sendMaxFloatUpdate, monitorMaxFloatStep] using
      List.mem_map_of_mem (fun kv : String × Nat =>
        (kv.2, (⟨sender, maxFloatUpdateEncode mf⟩ : MaxFloatUpdate))) hmem

/-- Witness for C10: a registry holding one peer with channel 7; a
non-EOF event leaves it registered, and after a quit-triggered return the
broadcast still sends to channel 7. -/
theorem monitorMaxFloat_registry_leak_witness :
    (monitorMaxFloatStep [("p", 7)] "p" StreamEvent.ctxDone).1 = [("p", 7)] ∧
    (7, (⟨[1], maxFloatUpdateEncode (some 5)⟩ : MaxFloatUpdate)) ∈
      sendMaxFloatUpdate
        (monitorMaxFloatStep [("p", 7)] "p" StreamEvent.quit).1 [1] (some 5) :=
  ⟨(monitorMaxFloat_registry_leak [("p", 7)] "p" [1] (some 5)).1
     StreamEvent.ctxDone (by decide),
   (monitorMaxFloat_registry_leak [("p", 7)] "p" [1] (some 5)).2.2.2.2
     7 (by decide)⟩
